import Mathlib

/-!
Shallow embedding of the Consultant-Client-Time-Tracker repository
(`src/types.ts`, `src/App.tsx`, `src/components/ImportModal.tsx`,
`src/components/ClientTable.tsx`, `src/components/AddClientModal.tsx`)
and proofs about its CSV import/export pipeline and roster store.

Modelling conventions:
- JS strings are Lean `String`s; the ASCII fragment of `toLowerCase`,
  `trim` and the `\s` regex class is modelled (all header aliases, status
  literals and message strings in the program are ASCII).
- `parseInt` is modelled with its ECMAScript semantics on the inputs the
  program feeds it: optional leading whitespace, an optional sign, then a
  hexadecimal literal after `0x`/`0X` or a maximal run of decimal digits;
  no digits means NaN, modelled as `none`.
- `new Date(s)` / `toISOString` / `toLocaleDateString` are modelled over
  calendar dates (year, month, day) in a UTC environment with an en-US
  locale, restricted to the two textual forms the program documents
  (`YYYY-MM-DD` and `MM/DD/YYYY`, four-digit years).
- `crypto.randomUUID()` and `new Date().toISOString()` (the current time)
  are nondeterministic; they are passed in as parameters (`mkId`, `now`).
-/

namespace ClientTracker

/-- The ASCII members of the JS `\s` class / `String.prototype.trim`
whitespace set. -/
def jsIsSpace (c : Char) : Bool :=
  c = ' ' || c = '\t' || c = '\n' || c = '\r' || c = '\x0b' || c = '\x0c'

/-- `s.toLowerCase()` (ASCII fragment). -/
def jsToLower (s : String) : String :=
  String.mk (s.data.map Char.toLower)

/-- `s.replace(/\s+/g, '')`: remove every whitespace character. -/
def stripSpaces (s : String) : String :=
  String.mk (s.data.filter (fun c => !jsIsSpace c))

/-- `s.trim()`: drop whitespace from both ends. -/
def jsTrim (s : String) : String :=
  String.mk (((s.data.dropWhile jsIsSpace).reverse.dropWhile jsIsSpace).reverse)

/-- The decimal value of an ASCII digit, if `c` is one. -/
def decDigit? (c : Char) : Option Nat :=
  if 48 ≤ c.toNat ∧ c.toNat ≤ 57 then some (c.toNat - 48) else none

/-- The value of an ASCII hexadecimal digit, if `c` is one. -/
def hexDigit? (c : Char) : Option Nat :=
  if 48 ≤ c.toNat ∧ c.toNat ≤ 57 then some (c.toNat - 48)
  else if 97 ≤ c.toNat ∧ c.toNat ≤ 102 then some (c.toNat - 87)
  else if 65 ≤ c.toNat ∧ c.toNat ≤ 70 then some (c.toNat - 55)
  else none

/-- Fold the maximal leading run of digits of `cs` in base `base`;
`none` when that run is empty (parseInt's NaN). -/
def leadingDigits? (dig : Char → Option Nat) (base : Nat) (cs : List Char) : Option Nat :=
  let run := cs.takeWhile (fun c => (dig c).isSome)
  if run.isEmpty then none
  else some (run.foldl (fun acc c => acc * base + ((dig c).getD 0)) 0)

/-- ECMAScript `parseInt(s)` with no radix argument: skip leading
whitespace, read an optional sign, then hexadecimal after `0x`/`0X`,
else a maximal decimal digit run; `none` models NaN. -/
def jsParseInt (s : String) : Option Int :=
  let cs := s.data.dropWhile jsIsSpace
  let signed : Int × List Char :=
    match cs with
    | '-' :: rest => (-1, rest)
    | '+' :: rest => (1, rest)
    | _ => (1, cs)
  match signed.2 with
  | '0' :: 'x' :: rest => (leadingDigits? hexDigit? 16 rest).map (fun n => signed.1 * (n : Int))
  | '0' :: 'X' :: rest => (leadingDigits? hexDigit? 16 rest).map (fun n => signed.1 * (n : Int))
  | rest => (leadingDigits? decDigit? 10 rest).map (fun n => signed.1 * (n : Int))

/-- A calendar day, the abstraction of the JS `Date` values this program
constructs (all at midnight). -/
structure CalDate where
  year : Nat
  month : Nat
  day : Nat
deriving DecidableEq, Repr

/-- Gregorian leap-year rule (as in ECMAScript's date arithmetic). -/
def isLeapYear (y : Nat) : Bool :=
  (y % 4 = 0 && y % 100 ≠ 0) || y % 400 = 0

/-- Days in month `m` of year `y` (months 1-12; 0 for anything else). -/
def daysInMonth (y m : Nat) : Nat :=
  match m with
  | 1 => 31 | 2 => if isLeapYear y then 29 else 28 | 3 => 31
  | 4 => 30 | 5 => 31 | 6 => 30 | 7 => 31 | 8 => 31
  | 9 => 30 | 10 => 31 | 11 => 30 | 12 => 31
  | _ => 0

/-- Assemble a calendar date from the eight digit characters of a
`YYYY-MM-DD` form, validating month and day ranges. -/
def dateFromDigits (y1 y2 y3 y4 m1 m2 d1 d2 : Char) : Option CalDate :=
  match decDigit? y1, decDigit? y2, decDigit? y3, decDigit? y4,
        decDigit? m1, decDigit? m2, decDigit? d1, decDigit? d2 with
  | some a, some b, some c, some d, some e, some f, some g, some h =>
    let y := ((a * 10 + b) * 10 + c) * 10 + d
    let m := e * 10 + f
    let dy := g * 10 + h
    if 1 ≤ m ∧ m ≤ 12 ∧ 1 ≤ dy ∧ dy ≤ daysInMonth y m then some ⟨y, m, dy⟩ else none
  | _, _, _, _, _, _, _, _ => none

/-- `new Date(s)` on a date-only ISO string `YYYY-MM-DD` (the ECMAScript
date-time string format, date part only). -/
def parseISODate (s : String) : Option CalDate :=
  match s.data with
  | [y1, y2, y3, y4, '-', m1, m2, '-', d1, d2] =>
    dateFromDigits y1 y2 y3 y4 m1 m2 d1 d2
  | _ => none

/-- A nonempty all-decimal-digit character list read as a number. -/
def digitsToNat? (cs : List Char) : Option Nat :=
  if cs.isEmpty then none
  else if cs.all (fun c => (decDigit? c).isSome)
  then some (cs.foldl (fun acc c => acc * 10 + ((decDigit? c).getD 0)) 0)
  else none

/-- Split a character list at every occurrence of `sep`
(`"a/b".split('/') = ["a","b"]`, `"".split('/') = [""]`). -/
def splitChar (sep : Char) : List Char → List String
  | [] => [""]
  | c :: rest =>
    match splitChar sep rest with
    | [] => if c = sep then ["", ""] else [String.mk [c]]
    | piece :: pieces =>
      if c = sep then "" :: piece :: pieces
      else String.mk (c :: piece.data) :: pieces

/-- `new Date(s)` on a US `MM/DD/YYYY` form (one- or two-digit month and
day, four-digit year), as the program's documentation describes. -/
def parseUSDate (s : String) : Option CalDate :=
  match splitChar '/' s.data with
  | [ms, ds, ys] =>
    if ms.length ≤ 2 ∧ ds.length ≤ 2 ∧ ys.length = 4 then
      match digitsToNat? ms.data, digitsToNat? ds.data, digitsToNat? ys.data with
      | some m, some dy, some y =>
        if 1 ≤ m ∧ m ≤ 12 ∧ 1 ≤ dy ∧ dy ≤ daysInMonth y m then some ⟨y, m, dy⟩ else none
      | _, _, _ => none
    else none
  | _ => none

/-- `new Date(s)` over the program's accepted textual date forms;
`none` models an Invalid Date (`isNaN(date.getTime())`). -/
def jsParseDate (s : String) : Option CalDate :=
  (parseISODate s).orElse (fun _ => parseUSDate s)

/-- The character of a single decimal digit. -/
def digitChar (k : Nat) : Char :=
  match k with
  | 0 => '0' | 1 => '1' | 2 => '2' | 3 => '3' | 4 => '4'
  | 5 => '5' | 6 => '6' | 7 => '7' | 8 => '8' | 9 => '9'
  | _ => '?'

/-- `date.toISOString()` for the midnight-UTC dates this program builds:
`YYYY-MM-DDT00:00:00.000Z` (years 0-9999, as toISOString renders them). -/
def toISOTimestamp (d : CalDate) : String :=
  String.mk ([digitChar (d.year / 1000 % 10), digitChar (d.year / 100 % 10),
    digitChar (d.year / 10 % 10), digitChar (d.year % 10), '-',
    digitChar (d.month / 10 % 10), digitChar (d.month % 10), '-',
    digitChar (d.day / 10 % 10), digitChar (d.day % 10)] ++ "T00:00:00.000Z".data)

/-- The calendar day denoted by a stored ISO timestamp string
(`YYYY-MM-DD` followed by anything), as `new Date(stored)` reads it
back in a UTC environment. -/
def storedDate? (s : String) : Option CalDate :=
  match s.data with
  | y1 :: y2 :: y3 :: y4 :: '-' :: m1 :: m2 :: '-' :: d1 :: d2 :: _ =>
    dateFromDigits y1 y2 y3 y4 m1 m2 d1 d2
  | _ => none

/-- `toLocaleDateString()` in an en-US locale: `M/D/YYYY`, no padding. -/
def usFormat (d : CalDate) : String :=
  toString d.month ++ "/" ++ toString d.day ++ "/" ++ toString d.year

/-- `new Date(stored).toLocaleDateString()` on a stored timestamp. -/
def renderLocaleDate (s : String) : String :=
  match storedDate? s with
  | some d => usFormat d
  | none => "Invalid Date"

/-! ## The Client record model (`src/types.ts`) -/

/-- `interface Client` of `src/types.ts`. -/
structure Client where
  id : String
  name : String
  clinician : String
  assignedDate : String
  unitsUsed : Int
  status : String
  lastUpdated : String
deriving DecidableEq, Repr

/-- `CLIENT_STATUSES` of `src/types.ts`, in source order. -/
def CLIENT_STATUSES : List String :=
  ["New Authorization",
   "Current Authorization",
   "Current Authorization (New LBS)",
   "Newly Assigned",
   "Client Hospitalized",
   "Frequent Caregiver Cancellations"]

/-! ## The roster store (`src/App.tsx`) -/

/-- `handleStatusChange` of `src/App.tsx`: map over the roster, replacing
the record whose id matches and refreshing its `lastUpdated`. -/
def handleStatusChange (clients : List Client) (id status now : String) : List Client :=
  clients.map (fun c =>
    if c.id = id then { c with status := status, lastUpdated := now } else c)

/-- `handleUnitsChange` of `src/App.tsx`: map over the roster, writing the
given units (unclamped) into the record whose id matches and refreshing
its `lastUpdated`. -/
def handleUnitsChange (clients : List Client) (id : String) (units : Int) (now : String) :
    List Client :=
  clients.map (fun c =>
    if c.id = id then { c with unitsUsed := units, lastUpdated := now } else c)

/-- `handleDeleteClient` of `src/App.tsx`: keep the records whose id
differs from the given one. -/
def handleDeleteClient (clients : List Client) (id : String) : List Client :=
  clients.filter (fun c => c.id != id)

/-- The view-layer clamp of `src/components/ClientTable.tsx`:
`Math.max(0, Math.min(960, parseInt(e.target.value) || 0))`. -/
def viewClampUnits (raw : String) : Int :=
  max 0 (min 960 ((jsParseInt raw).getD 0))

/-! ## The CSV export engine (`handleExport` of `src/App.tsx`) -/

/-- The export header cells of `handleExport`. -/
def exportHeader : List String :=
  ["Name", "Assigned Clinician", "Assigned Date", "Units Used", "Status", "Last Updated"]

/-- One exported data row's cells, as `handleExport` builds them. -/
def clientRow (c : Client) : List String :=
  [c.name, c.clinician, renderLocaleDate c.assignedDate, toString c.unitsUsed,
   c.status, renderLocaleDate c.lastUpdated]

/-- `handleExport` of `src/App.tsx`: header and data rows, each
comma-joined, the lines newline-joined. -/
def handleExport (clients : List Client) : String :=
  String.intercalate "\n"
    ((exportHeader :: clients.map clientRow).map (String.intercalate ","))

/-! ## The CSV import engine (`src/components/ImportModal.tsx`) -/

/-- A parsed CSV data row as PapaParse delivers it with `header: true`:
column keys paired with cell values, in column order. -/
abbrev CSVRow : Type := List (String × String)

/-- `row[key]`: the value under a column key. -/
def rowGet (row : CSVRow) (key : String) : String :=
  match List.find? (fun p => p.1 = key) row with
  | some p => p.2
  | none => ""

/-- The keys of a row, `Object.keys(row)`. -/
def rowKeys (row : CSVRow) : List String :=
  List.map Prod.fst row

/-- `EXPECTED_HEADERS.name`. -/
def expectedName : List String := ["name", "client name", "clientname", "client"]

/-- `EXPECTED_HEADERS.clinician`. -/
def expectedClinician : List String := ["clinician", "assigned clinician", "assignedclinician"]

/-- `EXPECTED_HEADERS.assignedDate`. -/
def expectedDate : List String := ["assigned date", "assigneddate", "date", "assignment date"]

/-- `EXPECTED_HEADERS.unitsUsed`. -/
def expectedUnits : List String := ["units", "units used", "unitsused"]

/-- `EXPECTED_HEADERS.status`. -/
def expectedStatus : List String := ["status", "client status"]

/-- The key test inside `findMatchingHeader`:
`headers.map(h => h.toLowerCase()).includes(key.toLowerCase().replace(/\s+/g, ''))`. -/
def headerMatches (aliases : List String) (key : String) : Bool :=
  (aliases.map jsToLower).contains (stripSpaces (jsToLower key))

/-- `findMatchingHeader` of `src/components/ImportModal.tsx`: the first
column key of the row whose lowercased, whitespace-stripped form is in
the lowercased alias list. -/
def findMatchingHeader (aliases : List String) (row : CSVRow) : Option String :=
  List.find? (headerMatches aliases) (rowKeys row)

/-- The per-row error kinds of `parseCSV`. -/
inductive RowError where
  | MissingColumns
  | MissingFields
  | InvalidUnits
  | InvalidStatus
  | InvalidDate
deriving DecidableEq, Repr

/-- The error message `parseCSV` pushes for row number `rowNum`
(1-based), one literal per error site. -/
def errorMessage (rowNum : Nat) (e : RowError) : String :=
  match e with
  | .MissingColumns => "Row " ++ toString rowNum ++ ": Missing or invalid column headers. Required columns: Name, Assigned Clinician, Assigned Date, Units Used, Status"
  | .MissingFields => "Row " ++ toString rowNum ++ ": Missing required fields"
  | .InvalidUnits => "Row " ++ toString rowNum ++ ": Invalid units (must be between 0-960)"
  | .InvalidStatus => "Row " ++ toString rowNum ++ ": Invalid status. Must be one of: " ++ String.intercalate ", " CLIENT_STATUSES
  | .InvalidDate => "Row " ++ toString rowNum ++ ": Invalid date format. Use YYYY-MM-DD or MM/DD/YYYY"

/-- A validated row before id/lastUpdated synthesis: the values
`parseCSV` pushes into the client it builds. -/
structure Staged where
  name : String
  clinician : String
  assignedDate : CalDate
  unitsUsed : Int
  status : String
deriving DecidableEq, Repr

instance : DecidableEq (Except RowError Staged) := fun a b =>
  match a, b with
  | .error x, .error y =>
    if h : x = y then .isTrue (by rw [h]) else .isFalse (by intro hc; cases hc; exact h rfl)
  | .ok x, .ok y =>
    if h : x = y then .isTrue (by rw [h]) else .isFalse (by intro hc; cases hc; exact h rfl)
  | .error _, .ok _ => .isFalse (fun hc => Except.noConfusion hc)
  | .ok _, .error _ => .isFalse (fun hc => Except.noConfusion hc)

/-- The body of `parseCSV`'s row callback after all five headers
resolved: presence, units, status and date checks in source order,
first failure winning. -/
def checkFields (row : CSVRow) (nk ck dk uk sk : String) : Except RowError Staged :=
  let name := jsTrim (rowGet row nk)
  let clinician := jsTrim (rowGet row ck)
  let assignedDate := jsTrim (rowGet row dk)
  let unitsStr := jsTrim (rowGet row uk)
  let status := jsTrim (rowGet row sk)
  if name = "" ∨ clinician = "" ∨ assignedDate = "" ∨ unitsStr = "" ∨ status = "" then
    .error .MissingFields
  else
    match jsParseInt unitsStr with
    | none => .error .InvalidUnits
    | some units =>
      if units < 0 ∨ 960 < units then .error .InvalidUnits
      else if ¬ (CLIENT_STATUSES.contains status) then .error .InvalidStatus
      else
        match jsParseDate assignedDate with
        | none => .error .InvalidDate
        | some dte => .ok ⟨name, clinician, dte, units, status⟩

/-- One iteration of `parseCSV`'s `results.data.forEach` callback:
resolve the five headers, then validate the row. -/
def processRow (row : CSVRow) : Except RowError Staged :=
  match findMatchingHeader expectedName row, findMatchingHeader expectedClinician row,
        findMatchingHeader expectedDate row, findMatchingHeader expectedUnits row,
        findMatchingHeader expectedStatus row with
  | some nk, some ck, some dk, some uk, some sk => checkFields row nk ck dk uk sk
  | _, _, _, _, _ => .error .MissingColumns

/-- The client `parseCSV` pushes for a validated row: fresh id, the
staged values, canonical ISO date, `lastUpdated` set to now. -/
def mkClient (mkId : Nat → String) (now : String) (idx : Nat) (s : Staged) : Client :=
  { id := mkId idx, name := s.name, clinician := s.clinician,
    assignedDate := toISOTimestamp s.assignedDate, unitsUsed := s.unitsUsed,
    status := s.status, lastUpdated := now }

/-- The `forEach` accumulation of `parseCSV`: clients pushed for valid
rows, error messages pushed for invalid ones, both in row order
(`idx` is the 0-based index of the first row of the slice). -/
def parseRows (mkId : Nat → String) (now : String) : List CSVRow → Nat → List Client × List String
  | [], _ => ([], [])
  | row :: rest, idx =>
    let tail := parseRows mkId now rest (idx + 1)
    match processRow row with
    | .ok s => (mkClient mkId now idx s :: tail.1, tail.2)
    | .error e => (tail.1, errorMessage (idx + 1) e :: tail.2)

/-- The end of `parseCSV`'s `complete` callback: with any error the
preview is emptied and only the errors stand; with none the parsed
clients become the preview. Returns (staged preview, error lines). -/
def parseCSV (mkId : Nat → String) (now : String) (rows : List CSVRow) :
    List Client × List String :=
  let acc := parseRows mkId now rows 0
  if acc.2.isEmpty then (acc.1, []) else ([], acc.2)

/-! ## Validation-check predicates (the conditions of `checkFields`,
named so the ordering theorems can refer to them) -/

/-- The presence check of `parseCSV`: some resolved value is empty after
trimming. -/
def presenceFails (row : CSVRow) (nk ck dk uk sk : String) : Prop :=
  jsTrim (rowGet row nk) = "" ∨ jsTrim (rowGet row ck) = "" ∨ jsTrim (rowGet row dk) = ""
    ∨ jsTrim (rowGet row uk) = "" ∨ jsTrim (rowGet row sk) = ""

instance (row : CSVRow) (nk ck dk uk sk : String) :
    Decidable (presenceFails row nk ck dk uk sk) := by
  unfold presenceFails; infer_instance

/-- The units check of `parseCSV`: `isNaN(units) || units < 0 || units > 960`. -/
def unitsFailB (u : String) : Bool :=
  match jsParseInt u with
  | none => true
  | some v => decide (v < 0) || decide (960 < v)

/-! ## Helper lemmas -/

theorem parseRows_snd_nil_iff (mkId : Nat → String) (now : String) :
    ∀ (rows : List CSVRow) (idx : Nat),
      (parseRows mkId now rows idx).2 = [] ↔ ∀ row ∈ rows, ∃ s, processRow row = .ok s := by
  intro rows
  induction rows with
  | nil => intro idx; simp [parseRows]
  | cons row rest ih =>
    intro idx
    cases hp : processRow row with
    | ok s => simp [parseRows, hp, List.forall_mem_cons, ih (idx + 1)]
    | error e => simp [parseRows, hp, List.forall_mem_cons]

theorem processRow_eq_checkFields (row : CSVRow) (nk ck dk uk sk : String)
    (h1 : findMatchingHeader expectedName row = some nk)
    (h2 : findMatchingHeader expectedClinician row = some ck)
    (h3 : findMatchingHeader expectedDate row = some dk)
    (h4 : findMatchingHeader expectedUnits row = some uk)
    (h5 : findMatchingHeader expectedStatus row = some sk) :
    processRow row = checkFields row nk ck dk uk sk := by
  unfold processRow
  rw [h1, h2, h3, h4, h5]

theorem decDigit_le (c : Char) (a : Nat) (h : decDigit? c = some a) : a ≤ 9 := by
  unfold decDigit? at h
  split at h
  · rename_i hc
    injection h with h'
    omega
  · exact absurd h (by simp)

theorem decDigit_digitChar (k : Nat) (hk : k < 10) : decDigit? (digitChar k) = some k := by
  interval_cases k <;> decide

theorem daysInMonth_le_31 (y m : Nat) : daysInMonth y m ≤ 31 := by
  unfold daysInMonth
  split <;> first | decide | (split <;> decide)

/-- A valid calendar date with a four-digit year is read back from its
stored ISO timestamp unchanged. -/
theorem storedDate_toISO (d : CalDate)
    (hv : 1 ≤ d.month ∧ d.month ≤ 12 ∧ 1 ≤ d.day ∧ d.day ≤ daysInMonth d.year d.month)
    (hy : d.year ≤ 9999) :
    storedDate? (toISOTimestamp d) = some d := by
  obtain ⟨y, m, dy⟩ := d
  simp only at hv hy
  have hm99 : m ≤ 99 := by omega
  have hd99 : dy ≤ 99 := by
    have := daysInMonth_le_31 y m
    omega
  unfold toISOTimestamp storedDate?
  simp only [List.cons_append, List.nil_append]
  unfold dateFromDigits
  rw [decDigit_digitChar (y / 1000 % 10) (Nat.mod_lt _ (by decide)),
      decDigit_digitChar (y / 100 % 10) (Nat.mod_lt _ (by decide)),
      decDigit_digitChar (y / 10 % 10) (Nat.mod_lt _ (by decide)),
      decDigit_digitChar (y % 10) (Nat.mod_lt _ (by decide)),
      decDigit_digitChar (m / 10 % 10) (Nat.mod_lt _ (by decide)),
      decDigit_digitChar (m % 10) (Nat.mod_lt _ (by decide)),
      decDigit_digitChar (dy / 10 % 10) (Nat.mod_lt _ (by decide)),
      decDigit_digitChar (dy % 10) (Nat.mod_lt _ (by decide))]
  have hy' : ((y / 1000 % 10 * 10 + y / 100 % 10) * 10 + y / 10 % 10) * 10 + y % 10 = y := by
    omega
  have hm' : m / 10 % 10 * 10 + m % 10 = m := by omega
  have hd' : dy / 10 % 10 * 10 + dy % 10 = dy := by omega
  simp only [hy', hm', hd']
  rw [if_pos hv]

theorem digitsToNat_lt (cs : List Char) (n : Nat) (h : digitsToNat? cs = some n) :
    n < 10 ^ cs.length := by
  have aux : ∀ (l : List Char) (acc : Nat), (∀ c ∈ l, (decDigit? c).isSome = true) →
      l.foldl (fun a c => a * 10 + ((decDigit? c).getD 0)) acc < (acc + 1) * 10 ^ l.length := by
    intro l
    induction l with
    | nil => intro acc _; simp
    | cons c cst ih =>
      intro acc hall
      simp only [List.foldl_cons, List.length_cons]
      have hc : (decDigit? c).getD 0 ≤ 9 := by
        obtain ⟨a, ha⟩ := Option.isSome_iff_exists.mp (hall c (by simp))
        rw [ha]
        simpa using decDigit_le c a ha
      calc List.foldl (fun a c => a * 10 + ((decDigit? c).getD 0)) (acc * 10 + (decDigit? c).getD 0) cst
      _ < (acc * 10 + (decDigit? c).getD 0 + 1) * 10 ^ cst.length :=
        ih _ (fun x hx => hall x (by simp [hx]))
      _ ≤ ((acc + 1) * 10) * 10 ^ cst.length := by
        apply Nat.mul_le_mul_right
        omega
      _ = (acc + 1) * 10 ^ (cst.length + 1) := by ring
  unfold digitsToNat? at h
  split at h
  · exact absurd h (by simp)
  · split at h
    · rename_i hall
      injection h with h'
      subst h'
      simpa using aux cs 0 (by simpa [List.all_eq_true] using hall)
    · exact absurd h (by simp)

theorem dateFromDigits_some (y1 y2 y3 y4 m1 m2 d1 d2 : Char) (d : CalDate)
    (h : dateFromDigits y1 y2 y3 y4 m1 m2 d1 d2 = some d) :
    (1 ≤ d.month ∧ d.month ≤ 12 ∧ 1 ≤ d.day ∧ d.day ≤ daysInMonth d.year d.month)
      ∧ d.year ≤ 9999 := by
  unfold dateFromDigits at h
  split at h
  · rename_i a b c dd e f g hh ha hb hc hd he hf hg hhh
    dsimp only at h
    split at h
    · rename_i hcond
      injection h with h'
      subst h'
      dsimp only
      have := decDigit_le _ _ ha
      have := decDigit_le _ _ hb
      have := decDigit_le _ _ hc
      have := decDigit_le _ _ hd
      refine ⟨hcond, by omega⟩
    · exact absurd h (by simp)
  · exact absurd h (by simp)

theorem parseISODate_some (s : String) (d : CalDate) (h : parseISODate s = some d) :
    (1 ≤ d.month ∧ d.month ≤ 12 ∧ 1 ≤ d.day ∧ d.day ≤ daysInMonth d.year d.month)
      ∧ d.year ≤ 9999 := by
  unfold parseISODate at h
  split at h
  · exact dateFromDigits_some _ _ _ _ _ _ _ _ d h
  · exact absurd h (by simp)

theorem parseUSDate_some (s : String) (d : CalDate) (h : parseUSDate s = some d) :
    (1 ≤ d.month ∧ d.month ≤ 12 ∧ 1 ≤ d.day ∧ d.day ≤ daysInMonth d.year d.month)
      ∧ d.year ≤ 9999 := by
  unfold parseUSDate at h
  split at h
  · rename_i ms ds ys hsplit
    split at h
    · rename_i hlen
      split at h
      · rename_i m dy y hm hd hy
        split at h
        · rename_i hcond
          injection h with h'
          subst h'
          dsimp only
          have hy4 : y < 10 ^ ys.data.length := digitsToNat_lt ys.data y hy
          refine ⟨hcond, ?_⟩
          have hlen4 : ys.data.length = 4 := hlen.2.2
          rw [hlen4] at hy4
          omega
        · exact absurd h (by simp)
      · exact absurd h (by simp)
    · exact absurd h (by simp)
  · exact absurd h (by simp)

theorem jsParseDate_some (s : String) (d : CalDate) (h : jsParseDate s = some d) :
    (1 ≤ d.month ∧ d.month ≤ 12 ∧ 1 ≤ d.day ∧ d.day ≤ daysInMonth d.year d.month)
      ∧ d.year ≤ 9999 := by
  unfold jsParseDate at h
  cases hiso : parseISODate s with
  | some d' =>
    rw [hiso] at h
    simp [Option.orElse] at h
    subst h
    exact parseISODate_some s d' hiso
  | none =>
    rw [hiso] at h
    simp [Option.orElse] at h
    exact parseUSDate_some s d h

/-- A successfully validated row's date was produced by `jsParseDate`. -/
theorem processRow_ok_date (row : CSVRow) (s : Staged) (h : processRow row = .ok s) :
    ∃ str, jsParseDate str = some s.assignedDate := by
  unfold processRow at h
  split at h
  · rename_i nk ck dk uk sk
    unfold checkFields at h
    dsimp only at h
    split at h
    · exact absurd h (by simp)
    · split at h
      · exact absurd h (by simp)
      · split at h
        · exact absurd h (by simp)
        · split at h
          · exact absurd h (by simp)
          · split at h
            · exact absurd h (by simp)
            · rename_i dte hdte
              injection h with h'
              subst h'
              exact ⟨_, hdte⟩
  · exact absurd h (by simp)

/-! ## Concrete rows used by counterexamples and witnesses -/

/-- A row whose units cell is the non-integer text `12.5` and whose other
cells are valid. -/
def unitsCexRow : CSVRow :=
  [("name", "Ann"), ("clinician", "Dr. B"), ("date", "2024-03-20"),
   ("units", "12.5"), ("status", "New Authorization")]

/-- A fully valid row except that its status is the lowercase
`new authorization`. -/
def statusCexRow : CSVRow :=
  [("name", "Ann"), ("clinician", "Dr. B"), ("date", "2024-03-20"),
   ("units", "100"), ("status", "new authorization")]

/-- A row whose name cell is whitespace only (presence check fails). -/
def blankNameRow : CSVRow :=
  [("name", "   "), ("clinician", "Dr. B"), ("date", "2024-03-20"),
   ("units", "5"), ("status", "New Authorization")]

/-- A fully valid row. -/
def validRow : CSVRow :=
  [("name", "Ann"), ("clinician", "Dr. B"), ("date", "2024-03-20"),
   ("units", "100"), ("status", "New Authorization")]

/-- A concrete stored client, for the store theorems. -/
def clientA : Client :=
  { id := "a", name := "Ann", clinician := "Dr. B",
    assignedDate := "2024-03-20T00:00:00.000Z", unitsUsed := 100,
    status := "New Authorization", lastUpdated := "2024-03-20T00:00:00.000Z" }

/-- A second concrete stored client. -/
def clientB : Client :=
  { id := "b", name := "Bob", clinician := "Dr. C",
    assignedDate := "2024-01-05T00:00:00.000Z", unitsUsed := 200,
    status := "Newly Assigned", lastUpdated := "2024-02-01T00:00:00.000Z" }

/-- A third concrete stored client. -/
def clientC : Client :=
  { id := "c", name := "Cyd", clinician := "Dr. D",
    assignedDate := "2023-11-30T00:00:00.000Z", unitsUsed := 0,
    status := "Client Hospitalized", lastUpdated := "2024-03-01T00:00:00.000Z" }

/-! ## Claim theorems -/

/-- C1: import is all-or-nothing. If any data row fails validation the
staged client set of `parseCSV` is empty and only the error list is
produced; a non-empty staged set arises only when every row validates. -/
theorem import_all_or_nothing (mkId : Nat → String) (now : String) (rows : List CSVRow) :
    ((∃ row ∈ rows, ∃ e, processRow row = .error e) →
        (parseCSV mkId now rows).1 = [] ∧ (parseCSV mkId now rows).2 ≠ [])
    ∧ ((parseCSV mkId now rows).1 ≠ [] → ∀ row ∈ rows, ∃ s, processRow row = .ok s) := by
  constructor
  · rintro ⟨row, hmem, e, he⟩
    have hne : (parseRows mkId now rows 0).2 ≠ [] := by
      intro hnil
      obtain ⟨s, hs⟩ := (parseRows_snd_nil_iff mkId now rows 0).mp hnil row hmem
      rw [he] at hs
      exact Except.noConfusion hs
    unfold parseCSV
    rw [if_neg (by simpa [List.isEmpty_iff] using hne)]
    exact ⟨rfl, hne⟩
  · intro hne
    by_cases hnil : (parseRows mkId now rows 0).2 = []
    · exact (parseRows_snd_nil_iff mkId now rows 0).mp hnil
    · exfalso
      apply hne
      unfold parseCSV
      rw [if_neg (by simpa [List.isEmpty_iff] using hnil)]

/-- C2: header resolution is asymmetric — a column key matches a logical
field iff lowercasing it and then stripping all whitespace yields a
member of the field's lowercased (not whitespace-stripped) alias list;
and a row in which any of the five logical fields resolves no key fails
with `MissingColumns`, whose message names all five required fields. -/
theorem header_resolution_asymmetric (aliases : List String) (key : String) (row : CSVRow)
    (i : Nat) :
    (headerMatches aliases key = true ↔ stripSpaces (jsToLower key) ∈ aliases.map jsToLower)
    ∧ ((findMatchingHeader expectedName row = none
        ∨ findMatchingHeader expectedClinician row = none
        ∨ findMatchingHeader expectedDate row = none
        ∨ findMatchingHeader expectedUnits row = none
        ∨ findMatchingHeader expectedStatus row = none)
        → processRow row = .error .MissingColumns)
    ∧ errorMessage i .MissingColumns
        = "Row " ++ toString i ++ ": Missing or invalid column headers. Required columns: Name, Assigned Clinician, Assigned Date, Units Used, Status" := by
  refine ⟨?_, ?_, rfl⟩
  · unfold headerMatches
    exact List.elem_iff
  · intro h
    unfold processRow
    cases h1 : findMatchingHeader expectedName row <;>
      cases h2 : findMatchingHeader expectedClinician row <;>
        cases h3 : findMatchingHeader expectedDate row <;>
          cases h4 : findMatchingHeader expectedUnits row <;>
            cases h5 : findMatchingHeader expectedStatus row <;>
              simp_all

/-- C4 (code bug evidence): the store-level units update writes the raw
value and does not clamp or reject; updating a one-client roster with
2000 units leaves a stored record holding 2000 > 960. -/
theorem store_units_update_unclamped :
    (handleUnitsChange [clientA] "a" 2000 "2024-04-01T00:00:00.000Z").map Client.unitsUsed
      = [2000]
    ∧ ¬ ((2000 : Int) ≤ 960) := by
  exact ⟨by decide, by decide⟩

/-- C8: store updates by an id absent from the roster are exact no-ops —
every record (including its `lastUpdated`) is unchanged, in length and
order. -/
theorem store_update_unknown_id_noop (clients : List Client) (id status now : String)
    (units : Int) (h : ∀ c ∈ clients, c.id ≠ id) :
    handleUnitsChange clients id units now = clients
    ∧ handleStatusChange clients id status now = clients := by
  have key : ∀ (l : List Client), (∀ c ∈ l, c.id ≠ id) →
      handleUnitsChange l id units now = l ∧ handleStatusChange l id status now = l := by
    intro l
    induction l with
    | nil => intro _; exact ⟨rfl, rfl⟩
    | cons c cs ih =>
      intro hl
      have hc : c.id ≠ id := hl c (by simp)
      obtain ⟨h1, h2⟩ := ih (fun x hx => hl x (by simp [hx]))
      constructor
      · simp only [handleUnitsChange, List.map_cons] at h1 ⊢
        rw [if_neg hc, h1]
      · simp only [handleStatusChange, List.map_cons] at h2 ⊢
        rw [if_neg hc, h2]
  exact key clients h

/-- C8 witness: `updateUnits(unknownId, 50)` (and a status update) on a
three-client roster leaves all three records byte-identical. -/
theorem store_update_unknown_id_noop_witness :
    handleUnitsChange [clientA, clientB, clientC] "unknown" 50 "2024-05-01T00:00:00.000Z"
      = [clientA, clientB, clientC]
    ∧ handleStatusChange [clientA, clientB, clientC] "unknown" "Newly Assigned"
        "2024-05-01T00:00:00.000Z"
      = [clientA, clientB, clientC] :=
  store_update_unknown_id_noop [clientA, clientB, clientC] "unknown" "Newly Assigned"
    "2024-05-01T00:00:00.000Z" 50 (by decide)

/-- C9: export emits the exact six-column header and one comma-joined row
per client in roster order, with name/clinician/status verbatim and
unitsUsed as a plain integer, without quoting; an empty roster exports
as the bare header line. -/
theorem export_format (clients : List Client) :
    handleExport clients
      = String.intercalate "\n"
          ("Name,Assigned Clinician,Assigned Date,Units Used,Status,Last Updated"
            :: clients.map (fun c =>
              c.name ++ "," ++ c.clinician ++ "," ++ renderLocaleDate c.assignedDate ++ ","
                ++ toString c.unitsUsed ++ "," ++ c.status ++ ","
                ++ renderLocaleDate c.lastUpdated))
    ∧ handleExport []
      = "Name,Assigned Clinician,Assigned Date,Units Used,Status,Last Updated" := by
  constructor
  · unfold handleExport
    rw [List.map_cons, List.map_map]
    rfl
  · rfl

/-- C10: deletion removes exactly the records carrying the given id (all
of them), keeps the remaining records' order and field values, and is a
no-op when no record has the id. -/
theorem delete_removes_exactly (clients : List Client) (id : String) :
    (∀ c ∈ handleDeleteClient clients id, c.id ≠ id)
    ∧ List.Sublist (handleDeleteClient clients id) clients
    ∧ (∀ c ∈ clients, c.id ≠ id → c ∈ handleDeleteClient clients id)
    ∧ ((∀ c ∈ clients, c.id ≠ id) → handleDeleteClient clients id = clients) := by
  refine ⟨?_, ?_, ?_, ?_⟩
  · intro c hc
    have := (List.mem_filter.mp hc).2
    simpa [bne_iff_ne] using this
  · exact List.filter_sublist _
  · intro c hc hne
    exact List.mem_filter.mpr ⟨hc, by simpa [bne_iff_ne] using hne⟩
  · intro h
    apply List.filter_eq_self.mpr
    intro c hc
    simpa [bne_iff_ne] using h c hc

/-- C5: per-row validation short-circuits in the fixed order presence →
units → status → date; at most one error is reported and it is the first
failing check, and a row passing all four yields the staged client. -/
theorem row_validation_order (row : CSVRow) (nk ck dk uk sk : String)
    (h1 : findMatchingHeader expectedName row = some nk)
    (h2 : findMatchingHeader expectedClinician row = some ck)
    (h3 : findMatchingHeader expectedDate row = some dk)
    (h4 : findMatchingHeader expectedUnits row = some uk)
    (h5 : findMatchingHeader expectedStatus row = some sk) :
    (presenceFails row nk ck dk uk sk → processRow row = .error .MissingFields)
    ∧ (¬ presenceFails row nk ck dk uk sk → unitsFailB (jsTrim (rowGet row uk)) = true →
        processRow row = .error .InvalidUnits)
    ∧ (¬ presenceFails row nk ck dk uk sk → unitsFailB (jsTrim (rowGet row uk)) = false →
        jsTrim (rowGet row sk) ∉ CLIENT_STATUSES → processRow row = .error .InvalidStatus)
    ∧ (¬ presenceFails row nk ck dk uk sk → unitsFailB (jsTrim (rowGet row uk)) = false →
        jsTrim (rowGet row sk) ∈ CLIENT_STATUSES →
        jsParseDate (jsTrim (rowGet row dk)) = none → processRow row = .error .InvalidDate)
    ∧ (¬ presenceFails row nk ck dk uk sk → unitsFailB (jsTrim (rowGet row uk)) = false →
        jsTrim (rowGet row sk) ∈ CLIENT_STATUSES →
        ∀ v, jsParseInt (jsTrim (rowGet row uk)) = some v →
        ∀ d, jsParseDate (jsTrim (rowGet row dk)) = some d →
        processRow row = .ok ⟨jsTrim (rowGet row nk), jsTrim (rowGet row ck), d, v,
          jsTrim (rowGet row sk)⟩) := by
  rw [processRow_eq_checkFields row nk ck dk uk sk h1 h2 h3 h4 h5]
  unfold checkFields
  dsimp only
  refine ⟨?_, ?_, ?_, ?_, ?_⟩
  · intro hp
    rw [if_pos (by unfold presenceFails at hp; exact hp)]
  · intro hnp hu
    rw [if_neg (by unfold presenceFails at hnp; exact hnp)]
    unfold unitsFailB at hu
    cases hpi : jsParseInt (jsTrim (rowGet row uk)) with
    | none => rfl
    | some v =>
      rw [hpi] at hu
      simp only [Bool.or_eq_true, decide_eq_true_eq] at hu
      dsimp only
      rw [if_pos hu]
  · intro hnp hu hst
    rw [if_neg (by unfold presenceFails at hnp; exact hnp)]
    unfold unitsFailB at hu
    cases hpi : jsParseInt (jsTrim (rowGet row uk)) with
    | none => rw [hpi] at hu; exact absurd hu (by simp)
    | some v =>
      rw [hpi] at hu
      simp only [Bool.or_eq_false_iff, decide_eq_false_iff_not] at hu
      dsimp only
      rw [if_neg (by omega), if_pos (fun hc => hst (List.elem_iff.mp hc))]
  · intro hnp hu hst hpd
    rw [if_neg (by unfold presenceFails at hnp; exact hnp)]
    unfold unitsFailB at hu
    cases hpi : jsParseInt (jsTrim (rowGet row uk)) with
    | none => rw [hpi] at hu; exact absurd hu (by simp)
    | some v =>
      rw [hpi] at hu
      simp only [Bool.or_eq_false_iff, decide_eq_false_iff_not] at hu
      dsimp only
      rw [if_neg (by omega), if_neg (fun hc => hc (List.elem_iff.mpr hst)), hpd]
  · intro hnp hu hst v hv d hd
    rw [if_neg (by unfold presenceFails at hnp; exact hnp)]
    unfold unitsFailB at hu
    rw [hv] at hu ⊢
    simp only [Bool.or_eq_false_iff, decide_eq_false_iff_not] at hu
    dsimp only
    rw [if_neg (by omega), if_neg (fun hc => hc (List.elem_iff.mpr hst)), hd]

/-- C5 witness: on a concrete row whose name cell is blank, the first
check (presence) fails and `MissingFields` is reported. -/
theorem row_validation_order_witness :
    (presenceFails blankNameRow "name" "clinician" "date" "units" "status" →
        processRow blankNameRow = .error .MissingFields)
    ∧ (¬ presenceFails blankNameRow "name" "clinician" "date" "units" "status" →
        unitsFailB (jsTrim (rowGet blankNameRow "units")) = true →
        processRow blankNameRow = .error .InvalidUnits)
    ∧ (¬ presenceFails blankNameRow "name" "clinician" "date" "units" "status" →
        unitsFailB (jsTrim (rowGet blankNameRow "units")) = false →
        jsTrim (rowGet blankNameRow "status") ∉ CLIENT_STATUSES →
        processRow blankNameRow = .error .InvalidStatus)
    ∧ (¬ presenceFails blankNameRow "name" "clinician" "date" "units" "status" →
        unitsFailB (jsTrim (rowGet blankNameRow "units")) = false →
        jsTrim (rowGet blankNameRow "status") ∈ CLIENT_STATUSES →
        jsParseDate (jsTrim (rowGet blankNameRow "date")) = none →
        processRow blankNameRow = .error .InvalidDate)
    ∧ (¬ presenceFails blankNameRow "name" "clinician" "date" "units" "status" →
        unitsFailB (jsTrim (rowGet blankNameRow "units")) = false →
        jsTrim (rowGet blankNameRow "status") ∈ CLIENT_STATUSES →
        ∀ v, jsParseInt (jsTrim (rowGet blankNameRow "units")) = some v →
        ∀ d, jsParseDate (jsTrim (rowGet blankNameRow "date")) = some d →
        processRow blankNameRow = .ok ⟨jsTrim (rowGet blankNameRow "name"),
          jsTrim (rowGet blankNameRow "clinician"), d, v,
          jsTrim (rowGet blankNameRow "status")⟩) :=
  row_validation_order blankNameRow "name" "clinician" "date" "units" "status"
    (by decide) (by decide) (by decide) (by decide) (by decide)

/-- C3 counterexample: the non-integer units text `12.5` is NOT rejected —
`parseInt` reads its integer prefix 12 and the row is accepted with
`unitsUsed = 12`. -/
theorem units_nonint_text_accepted :
    processRow unitsCexRow
        = .ok ⟨"Ann", "Dr. B", ⟨2024, 3, 20⟩, 12, "New Authorization"⟩
    ∧ processRow unitsCexRow ≠ .error .InvalidUnits :=
  ⟨by decide, by decide⟩

/-- C3 (amended): for a row past the presence check, `InvalidUnits` is
reported iff `parseInt` of the units text yields NaN or an integer
outside [0, 960]; a row that passes stores the parsed integer, which
lies in [0, 960]. -/
theorem units_validation (row : CSVRow) (nk ck dk uk sk : String)
    (h1 : findMatchingHeader expectedName row = some nk)
    (h2 : findMatchingHeader expectedClinician row = some ck)
    (h3 : findMatchingHeader expectedDate row = some dk)
    (h4 : findMatchingHeader expectedUnits row = some uk)
    (h5 : findMatchingHeader expectedStatus row = some sk)
    (hnp : ¬ presenceFails row nk ck dk uk sk) :
    (processRow row = .error .InvalidUnits ↔
      (jsParseInt (jsTrim (rowGet row uk)) = none
        ∨ ∃ v, jsParseInt (jsTrim (rowGet row uk)) = some v ∧ (v < 0 ∨ 960 < v)))
    ∧ (∀ s, processRow row = .ok s →
        jsParseInt (jsTrim (rowGet row uk)) = some s.unitsUsed
          ∧ 0 ≤ s.unitsUsed ∧ s.unitsUsed ≤ 960) := by
  rw [processRow_eq_checkFields row nk ck dk uk sk h1 h2 h3 h4 h5]
  unfold checkFields
  dsimp only
  rw [if_neg (by unfold presenceFails at hnp; exact hnp)]
  cases hpi : jsParseInt (jsTrim (rowGet row uk)) with
  | none =>
    constructor
    · simp
    · intro s hs
      exact absurd hs (by simp)
  | some v =>
    dsimp only
    by_cases hr : v < 0 ∨ 960 < v
    · rw [if_pos hr]
      constructor
      · exact iff_of_true rfl (Or.inr ⟨v, rfl, hr⟩)
      · intro s hs
        exact absurd hs (by simp)
    · rw [if_neg hr]
      constructor
      · apply iff_of_false
        · by_cases hst : CLIENT_STATUSES.contains (jsTrim (rowGet row sk)) = true
          · rw [if_neg (fun hc => hc hst)]
            cases hpd : jsParseDate (jsTrim (rowGet row dk)) <;> simp
          · rw [if_pos hst]
            simp
        · rintro (h | ⟨v', hv', hout⟩)
          · exact Option.noConfusion h
          · injection hv' with h'
            subst h'
            exact hr hout
      · intro s hs
        by_cases hst : CLIENT_STATUSES.contains (jsTrim (rowGet row sk)) = true
        · rw [if_neg (fun hc => hc hst)] at hs
          cases hpd : jsParseDate (jsTrim (rowGet row dk)) with
          | none => rw [hpd] at hs; exact absurd hs (by simp)
          | some dte =>
            rw [hpd] at hs
            injection hs with h'
            subst h'
            dsimp only
            exact ⟨rfl, by omega, by omega⟩
        · rw [if_pos hst] at hs
          exact absurd hs (by simp)

/-- C3 amended-claim witness at a fully valid concrete row. -/
theorem units_validation_witness :
    (processRow validRow = .error .InvalidUnits ↔
      (jsParseInt (jsTrim (rowGet validRow "units")) = none
        ∨ ∃ v, jsParseInt (jsTrim (rowGet validRow "units")) = some v ∧ (v < 0 ∨ 960 < v)))
    ∧ (∀ s, processRow validRow = .ok s →
        jsParseInt (jsTrim (rowGet validRow "units")) = some s.unitsUsed
          ∧ 0 ≤ s.unitsUsed ∧ s.unitsUsed ≤ 960) :=
  units_validation validRow "name" "clinician" "date" "units" "status"
    (by decide) (by decide) (by decide) (by decide) (by decide) (by decide)

/-- C7: status validation is an exact, case-sensitive membership test
against the canonical six literals; the lowercase `new authorization`
is rejected with `InvalidStatus` even though header matching is
case-insensitive. -/
theorem status_case_sensitive (row : CSVRow) (nk ck dk uk sk : String)
    (h1 : findMatchingHeader expectedName row = some nk)
    (h2 : findMatchingHeader expectedClinician row = some ck)
    (h3 : findMatchingHeader expectedDate row = some dk)
    (h4 : findMatchingHeader expectedUnits row = some uk)
    (h5 : findMatchingHeader expectedStatus row = some sk)
    (hnp : ¬ presenceFails row nk ck dk uk sk)
    (hu : unitsFailB (jsTrim (rowGet row uk)) = false) :
    (processRow row = .error .InvalidStatus ↔ jsTrim (rowGet row sk) ∉ CLIENT_STATUSES)
    ∧ CLIENT_STATUSES = ["New Authorization", "Current Authorization",
        "Current Authorization (New LBS)", "Newly Assigned", "Client Hospitalized",
        "Frequent Caregiver Cancellations"]
    ∧ "new authorization" ∉ CLIENT_STATUSES
    ∧ processRow statusCexRow = .error .InvalidStatus := by
  refine ⟨?_, rfl, by decide, by decide⟩
  rw [processRow_eq_checkFields row nk ck dk uk sk h1 h2 h3 h4 h5]
  unfold checkFields
  dsimp only
  rw [if_neg (by unfold presenceFails at hnp; exact hnp)]
  unfold unitsFailB at hu
  cases hpi : jsParseInt (jsTrim (rowGet row uk)) with
  | none => rw [hpi] at hu; exact absurd hu (by simp)
  | some v =>
    rw [hpi] at hu
    simp only [Bool.or_eq_false_iff, decide_eq_false_iff_not] at hu
    dsimp only
    rw [if_neg (by omega)]
    by_cases hst : CLIENT_STATUSES.contains (jsTrim (rowGet row sk)) = true
    · rw [if_neg (fun hc => hc hst)]
      apply iff_of_false
      · cases hpd : jsParseDate (jsTrim (rowGet row dk)) <;> simp
      · exact fun hn => hn (List.elem_iff.mp hst)
    · rw [if_pos hst]
      exact iff_of_true rfl (fun hmem => hst (List.elem_iff.mpr hmem))

/-- C7 witness: at the concrete lowercase-status row, the rejection and
the membership characterization coincide. -/
theorem status_case_sensitive_witness :
    (processRow statusCexRow = .error .InvalidStatus ↔
        jsTrim (rowGet statusCexRow "status") ∉ CLIENT_STATUSES)
    ∧ CLIENT_STATUSES = ["New Authorization", "Current Authorization",
        "Current Authorization (New LBS)", "Newly Assigned", "Client Hospitalized",
        "Frequent Caregiver Cancellations"]
    ∧ "new authorization" ∉ CLIENT_STATUSES
    ∧ processRow statusCexRow = .error .InvalidStatus :=
  status_case_sensitive statusCexRow "name" "clinician" "date" "units" "status"
    (by decide) (by decide) (by decide) (by decide) (by decide) (by decide) (by decide)

/-- The round-trip relation of C6 between an input row and the imported
client built from it: the staged (validated) name, clinician, status and
units are stored unchanged, and the exported row cells reproduce them
verbatim, with the exported assigned-date cell rendering exactly the
calendar day parsed from the input date text. -/
def RoundTrips (now : String) (row : CSVRow) (c : Client) : Prop :=
  ∃ s, processRow row = .ok s
    ∧ c.name = s.name ∧ c.clinician = s.clinician ∧ c.status = s.status
    ∧ c.unitsUsed = s.unitsUsed
    ∧ clientRow c = [s.name, s.clinician, usFormat s.assignedDate, toString s.unitsUsed,
        s.status, renderLocaleDate now]

theorem parseRows_forall₂ (mkId : Nat → String) (now : String) :
    ∀ (rows : List CSVRow) (idx : Nat), (∀ row ∈ rows, ∃ s, processRow row = .ok s) →
      List.Forall₂ (RoundTrips now) rows (parseRows mkId now rows idx).1 := by
  intro rows
  induction rows with
  | nil => intro idx _; exact List.Forall₂.nil
  | cons row rest ih =>
    intro idx hall
    obtain ⟨s, hs⟩ := hall row (by simp)
    have htail := ih (idx + 1) (fun r hr => hall r (by simp [hr]))
    simp only [parseRows, hs]
    refine List.Forall₂.cons ⟨s, hs, rfl, rfl, rfl, rfl, ?_⟩ htail
    unfold clientRow mkClient
    dsimp only
    obtain ⟨str, hd⟩ := processRow_ok_date row s hs
    obtain ⟨hv, hy⟩ := jsParseDate_some str s.assignedDate hd
    unfold renderLocaleDate
    rw [storedDate_toISO s.assignedDate hv hy]

/-- C6: importing an all-valid CSV and exporting the staged clients
reproduces each row's validated name, clinician, status and unitsUsed
exactly and in the original row order, and renders each exported
assigned date as the same calendar day the input date text denoted. -/
theorem import_export_roundtrip (mkId : Nat → String) (now : String) (rows : List CSVRow)
    (hok : ∀ row ∈ rows, ∃ s, processRow row = .ok s) :
    List.Forall₂ (RoundTrips now) rows (parseCSV mkId now rows).1 := by
  unfold parseCSV
  have hnil : (parseRows mkId now rows 0).2 = [] :=
    (parseRows_snd_nil_iff mkId now rows 0).mpr hok
  rw [if_pos (by simpa [List.isEmpty_iff] using hnil)]
  exact parseRows_forall₂ mkId now rows 0 hok

/-- C6 witness: a concrete one-row import round-trips through export. -/
theorem import_export_roundtrip_witness :
    List.Forall₂ (RoundTrips "2024-04-01T00:00:00.000Z") [validRow]
      (parseCSV (fun n => toString n) "2024-04-01T00:00:00.000Z" [validRow]).1 :=
  import_export_roundtrip (fun n => toString n) "2024-04-01T00:00:00.000Z" [validRow]
    (by
      intro row hr
      rw [List.mem_singleton] at hr
      subst hr
      exact ⟨⟨"Ann", "Dr. B", ⟨2024, 3, 20⟩, 100, "New Authorization"⟩, by decide⟩)

end ClientTracker
